import Mathlib

/-!
Shallow embedding of the MCP sample client/server repository.

The embedded core is `MCPClient.processQuery` and `MCPClient.chatLoop` from
`src/mcp-client-typescript/index.ts`, together with the date-normalisation
logic of the `healthMetrics` tool handlers from the SSE servers
(`src/unnamed/part_000` lines 26-45 and `src/unnamed/part_001` lines 87-106).

External collaborators (provider sessions and the chat-completion API) are
modelled as oracles: a provider session is a record of response functions,
and the chat-completion API is a function from (call index, transcript) to a
completion.  Provider round-trips and completion calls are recorded in an
explicit event trace so that claims about "how many calls happen" are
statable.  Fallible JS code (`throw`) is modelled with `Except String`.
-/

namespace MCPSpec

/-- JS `s.split('__')` specialised to the two-character separator used by the
client (index.ts line 245), written as a structural recursion over the
character list so that it evaluates inside the kernel.  Non-overlapping
left-to-right scan, exactly like `String.prototype.split`. -/
def splitUU : List Char → List (List Char)
  | [] => [[]]
  | '_' :: '_' :: rest => [] :: splitUU rest
  | c :: rest =>
    match splitUU rest with
    | [] => [[c]]
    | h :: t => (c :: h) :: t

/-- `name.split('__')` lifted to `String`. -/
def splitDunder (s : String) : List String :=
  (splitUU s.data).map (fun cs => ⟨cs⟩)

/-- First element of the split, `parts[0]` in JS (always present, since a JS
split never yields an empty array). -/
def headOrEmpty (l : List String) : String := l.head?.getD ""

/-- JS truthiness of an optional string: `undefined` and `""` are falsy. -/
def jsTruthy : Option String → Bool
  | none => false
  | some s => !(s == "")

/-- JS `array.join("\n")` (index.ts lines 262 and 381), structural so it
evaluates in the kernel. -/
def joinLines : List String → String
  | [] => ""
  | [s] => s
  | s :: rest => s ++ "\n" ++ joinLines rest

/-- JS `s.startsWith(p)` (index.ts line 276). -/
def strStartsWith (p s : String) : Bool := p.data.isPrefixOf s.data

/-- JS `s.toLowerCase()` restricted to the ASCII range that the sentinel
comparison in `chatLoop` needs (index.ts line 399). -/
def lowerAscii (s : String) : String := ⟨s.data.map Char.toLower⟩

/-- A character the JS `trim()` removes; the common ASCII whitespace class
(JS also trims further Unicode space characters, irrelevant here). -/
def isJsSpace (c : Char) : Bool :=
  c == ' ' || c == '\t' || c == '\n' || c == '\r' || c == '\x0b' || c == '\x0c'

/-- JS `s.trim()` (index.ts line 398). -/
def jsTrim (s : String) : String :=
  ⟨((s.data.dropWhile isJsSpace).reverse.dropWhile isJsSpace).reverse⟩

/-- JS `Map.get`: first (unique) entry with the given key. -/
def mapGet {α : Type} : List (String × α) → String → Option α
  | [], _ => none
  | p :: rest, k => if p.1 == k then some p.2 else mapGet rest k

/-- JS `Map.set`: overwrite in place when the key exists (keeping its
position), otherwise append at the end. -/
def mapSet {α : Type} (m : List (String × α)) (k : String) (v : α) :
    List (String × α) :=
  if m.any (fun p => p.1 == k) then
    m.map (fun p => if p.1 == k then (k, v) else p)
  else
    m ++ [(k, v)]

/-- A JSON schema, kept opaque: the client forwards provider schemas
verbatim and otherwise uses the literal empty-object schema
(index.ts lines 197-201, 214-218). -/
inductive Schema
  | emptyObject
  | declared (s : String)
deriving DecidableEq

/-- A tool as advertised by a provider (`listTools` entry). -/
structure ToolDescriptor where
  name : String
  description : String
  inputSchema : Schema
deriving DecidableEq

/-- A resource as advertised by a provider (`listResources` entry). -/
structure Resource where
  name : String
  description : Option String
  parametersSchema : Option Schema
deriving DecidableEq

/-- One part of an `MCPToolResult` content array (index.ts lines 16-23). -/
structure ContentItem where
  type : String
  text : Option String
  data : Option String
  mimeType : Option String
deriving DecidableEq

/-- `MCPToolResult.content`: a plain string or an array of typed parts. -/
inductive ToolResultContent
  | str (s : String)
  | arr (items : List ContentItem)
deriving DecidableEq

/-- One entry of `MCPResourceResult.contents` (index.ts lines 24-31). -/
structure ResourceContent where
  uri : String
  mimeType : String
  blob : Option String
  text : Option String
deriving DecidableEq

/-- Result of `session.readResource` (index.ts lines 24-31). -/
structure MCPResourceResult where
  contents : List ResourceContent
deriving DecidableEq

/-- A provider session, modelled by its response behaviour: the fixed tool
list returned by `listTools`, and oracles for `callTool` and
`readResource` (an `Except.error` models a thrown JS error). -/
structure Session where
  tools : List ToolDescriptor
  callTool : String → String → Except String ToolResultContent
  readResource : String → String → Except String MCPResourceResult

/-- A model-issued invocation request (an OpenAI `tool_call`): `id`,
`function.name`, and the raw `function.arguments` payload, kept opaque
(`JSON.parse`/`JSON.stringify` round-trips are modelled as the identity). -/
structure ToolCall where
  id : String
  name : String
  arguments : String
deriving DecidableEq

/-- A transcript message (`ChatCompletionMessageParam` as used by the
client: index.ts lines 169-174, 333-337, 360-364). -/
inductive ChatMessage
  | user (content : String)
  | assistant (content : String) (tool_calls : List ToolCall)
  | tool (tool_call_id : String) (content : String)
deriving DecidableEq

/-- The message inside one completion choice. -/
structure ChoiceMessage where
  content : Option String
  tool_calls : Option (List ToolCall)
deriving DecidableEq

/-- One choice of a chat completion. -/
structure Choice where
  message : ChoiceMessage
deriving DecidableEq

/-- A chat completion response. -/
structure Completion where
  choices : List Choice
deriving DecidableEq

/-- The chat-completion API, as an oracle from (number of calls already made
inside this `processQuery`, transcript sent) to the response.  The tools
payload is omitted from the oracle's domain because `availableTools` is
computed once per query and never changes between the calls of one query. -/
def Api : Type := Nat → List ChatMessage → Completion

/-- Observable interactions of one `processQuery` run: provider round-trips
and chat-completion calls, in order. -/
inductive Event
  | providerListTools (server : String)
  | providerCallTool (server : String) (name : String) (args : String)
  | providerReadResource (server : String) (uri : String)
  | completionCall (messages : List ChatMessage)
deriving DecidableEq

/-- The client's mutable registries (index.ts lines 43-46): the session map
and the per-server resource map (itself a JS `Map` from resource name to
resource). -/
structure MCPClient where
  sessions : List (String × Session)
  resources : List (String × List (String × Resource))

/-- `new Map(resources.map(r => [r.name, r]))` (index.ts lines 92-94):
JS `Map` construction from pairs, later duplicates overwriting earlier
ones in place. -/
def buildResourceMap (rs : List Resource) : List (String × Resource) :=
  rs.foldl (fun m r => mapSet m r.name r) []

/-- Registry effect of a successful `connectToServer` (index.ts lines
82-99): the session is stored under the server name and the resource map is
cached (an empty map when the provider declared no resources). -/
def connectToServer (c : MCPClient) (serverName : String) (session : Session)
    (resourcesResponse : List Resource) : MCPClient :=
  { sessions := mapSet c.sessions serverName session,
    resources := mapSet c.resources serverName (buildResourceMap resourcesResponse) }

/-- `MCPClient.listResources` (index.ts lines 129-135): throws when the
server has no cached resource map, otherwise returns the map's values. -/
def listResources (c : MCPClient) (serverName : String) :
    Except String (List Resource) :=
  match mapGet c.resources serverName with
  | none => Except.error ("No resources available for server: " ++ serverName)
  | some rm => Except.ok (rm.map (fun p => p.2))

/-- `MCPClient.readResource` (index.ts lines 137-163): session lookup,
cached-resource check, then the provider round-trip; a provider error is
logged and rethrown.  The second component is the trace of provider calls
made (the round-trip happens only when both lookups succeed).  The JS
error messages quote the resource name in single quotes; the quotes are
elided here. -/
def clientReadResource (c : MCPClient) (serverName resourceName : String)
    (params : String) : Except String MCPResourceResult × List Event :=
  match mapGet c.sessions serverName with
  | none => (Except.error ("No session found for server: " ++ serverName), [])
  | some session =>
    match mapGet c.resources serverName with
    | none =>
      (Except.error ("Resource " ++ resourceName ++ " not found on server: " ++ serverName), [])
    | some rm =>
      if rm.any (fun p => p.1 == resourceName) then
        (session.readResource ("/" ++ resourceName) params,
         [Event.providerReadResource serverName ("/" ++ resourceName)])
      else
        (Except.error ("Resource " ++ resourceName ++ " not found on server: " ++ serverName), [])

/-- The namespacing step of the capability catalog (index.ts line 184):
`` `${serverName}__${tool.name}` ``. -/
def qualify (providerName localName : String) : String :=
  providerName ++ "__" ++ localName

/-- A flattened callable-function descriptor sent to the model. -/
structure ToolDef where
  name : String
  description : String
  parameters : Schema
deriving DecidableEq

/-- The catalog entries contributed by one connected server (index.ts lines
179-222): its qualified tools, the synthesized `listResources`
meta-capability, and one `readResource__<name>` meta-capability per cached
resource. -/
def serverCapabilities (c : MCPClient) (serverName : String) (session : Session) :
    List ToolDef :=
  (session.tools.map (fun t =>
    { name := qualify serverName t.name,
      description := "[" ++ serverName ++ "] " ++ t.description,
      parameters := t.inputSchema }))
  ++ [{ name := serverName ++ "__listResources",
        description := "[" ++ serverName ++ "] List available resources on the server",
        parameters := Schema.emptyObject }]
  ++ (match mapGet c.resources serverName with
      | none => []
      | some rm => rm.map (fun p =>
          { name := serverName ++ "__readResource__" ++ p.1,
            description := "[" ++ serverName ++ "] Read resource: " ++ p.1,
            parameters := p.2.parametersSchema.getD Schema.emptyObject }))

/-- `availableTools` as accumulated by the for-loop over sessions
(index.ts lines 176-223). -/
def buildAvailableTools (c : MCPClient) : List ToolDef :=
  c.sessions.foldl (fun acc p => acc ++ serverCapabilities c p.1 p.2) []

/-- Rendering of one content part for the operator-facing output
(index.ts lines 315-328). -/
def describeItemDisplay (item : ContentItem) : String :=
  if item.type == "text" then item.text.getD ""
  else if item.type == "image" then
    "[Image received: Health data visualization that cannot be displayed directly. The image shows health metrics for the requested device and date.]"
  else "[Content of type " ++ item.type ++ "]"

/-- Rendering of one content part for the transcript copy sent back to the
model (index.ts lines 344-357). -/
def describeItemApi (item : ContentItem) : String :=
  if item.type == "text" then item.text.getD ""
  else if item.type == "image" then
    "[Image received: This is a health data visualization that cannot be displayed directly in text. The image shows health metrics visualization for the requested device and date.]"
  else "[Content of type " ++ item.type ++ "]"

/-- The operator-facing rendering of a tool result (index.ts lines 312-330). -/
def displayToolResult : ToolResultContent → String
  | ToolResultContent.str s => s
  | ToolResultContent.arr items => joinLines (items.map describeItemDisplay)

/-- The text-only collapsed form folded into the transcript
(index.ts lines 340-358). -/
def collapseToolResult : ToolResultContent → String
  | ToolResultContent.str s => s
  | ToolResultContent.arr items => joinLines (items.map describeItemApi)

/-- Rendering of one resource content part (index.ts lines 275-284): image
mime types become a placeholder, truthy text is inlined, truthy blobs
become a binary placeholder, anything else contributes nothing. -/
def renderResourceContent (rc : ResourceContent) : String :=
  if strStartsWith "image/" rc.mimeType then
    "[Image: " ++ rc.uri ++ " (" ++ rc.mimeType ++ ")]"
  else if jsTruthy rc.text then rc.text.getD ""
  else if jsTruthy rc.blob then
    "[Binary data: " ++ rc.uri ++ " (" ++ rc.mimeType ++ ")]"
  else ""

/-- `contentText` accumulation over `resourceResult.contents`
(index.ts lines 274-284). -/
def collapseResourceContents (contents : List ResourceContent) : String :=
  contents.foldl (fun acc rc => acc ++ renderResourceContent rc) ""

/-- `contentText || 'Resource content is empty'` (index.ts line 287). -/
def orEmptyNote (s : String) : String :=
  if s == "" then "Resource content is empty" else s

/-- In-flight state of one `processQuery` call: the transcript, the output
accumulator `finalText`, the observable event trace, and the number of
chat-completion calls made so far. -/
structure LoopState where
  messages : List ChatMessage
  finalText : List String
  events : List Event
  apiCalls : Nat

/-- Common tail of every dispatched invocation request (index.ts lines
303-376): push the rendered result to `finalText`, append the
(assistant-call, tool-result) pair to the transcript, issue the next
chat-completion call, and push its plain content (if truthy).  Accessing
`choices[0]` of an empty choice list is the JS `TypeError` crash,
modelled as an error. -/
def finishToolCall (api : Api) (st : LoopState) (toolCall : ToolCall)
    (result : ToolResultContent) : Except String LoopState :=
  match (api st.apiCalls
      (st.messages ++ [ChatMessage.assistant "" [toolCall],
                       ChatMessage.tool toolCall.id (collapseToolResult result)])).choices.head? with
  | none => Except.error "TypeError: undefined choice in follow-up completion"
  | some ch =>
    Except.ok
      { messages := st.messages ++ [ChatMessage.assistant "" [toolCall],
                                    ChatMessage.tool toolCall.id (collapseToolResult result)],
        finalText := (st.finalText ++ [displayToolResult result])
          ++ (if jsTruthy ch.message.content then [ch.message.content.getD ""] else []),
        events := st.events ++ [Event.completionCall
          (st.messages ++ [ChatMessage.assistant "" [toolCall],
                           ChatMessage.tool toolCall.id (collapseToolResult result)])],
        apiCalls := st.apiCalls + 1 }

/-- The `readResource` dispatch branch (index.ts lines 266-293): the client
`readResource` is tried, and a thrown error is caught at the dispatch site
and converted into textual tool-result content. -/
def dispatchRead (c : MCPClient) (api : Api) (st : LoopState) (toolCall : ToolCall)
    (serverName resourceName : String) : Except String LoopState :=
  match clientReadResource c serverName resourceName toolCall.arguments with
  | (Except.error e, evs) =>
    finishToolCall api { st with events := st.events ++ evs } toolCall
      (ToolResultContent.str ("Error reading resource: " ++ e))
  | (Except.ok res, evs) =>
    finishToolCall api { st with events := st.events ++ evs } toolCall
      (ToolResultContent.str (orEmptyNote (collapseResourceContents res.contents)))

/-- Dispatch of one invocation request once its provider session was found
(index.ts lines 255-301): routed on the second `__`-separated segment.
`parts[1]` and `parts[2]` may be JS `undefined` for short names; the
`undefined` interpolation/behaviour is modelled by `Option.getD
"undefined"`.  Note that a thrown `session.callTool` error is NOT caught
here: it propagates. -/
def dispatchKnown (c : MCPClient) (api : Api) (st : LoopState) (toolCall : ToolCall)
    (parts : List String) (session : Session) : Except String LoopState :=
  if parts.get? 1 = some "listResources" then
    match mapGet c.resources (headOrEmpty parts) with
    | none => Except.error ("No resources available for server: " ++ headOrEmpty parts)
    | some rm =>
      finishToolCall api
        { st with finalText := st.finalText
            ++ ["[Listing resources on server " ++ headOrEmpty parts ++ "]"] }
        toolCall
        (ToolResultContent.str ("Available resources on " ++ headOrEmpty parts ++ ":\n"
          ++ joinLines (rm.map (fun p =>
              "- " ++ p.2.name ++ ": " ++ p.2.description.getD "No description"))))
  else if parts.get? 1 = some "readResource" then
    dispatchRead c api
      { st with finalText := st.finalText
          ++ ["[Reading resource " ++ (parts.get? 2).getD "undefined"
              ++ " on server " ++ headOrEmpty parts
              ++ " with params " ++ toolCall.arguments ++ "]"] }
      toolCall (headOrEmpty parts) ((parts.get? 2).getD "undefined")
  else
    match session.callTool ((parts.get? 1).getD "undefined") toolCall.arguments with
    | Except.error e => Except.error e
    | Except.ok r =>
      finishToolCall api
        { st with
            finalText := st.finalText
              ++ ["[Calling tool " ++ (parts.get? 1).getD "undefined"
                  ++ " on server " ++ headOrEmpty parts
                  ++ " with args " ++ toolCall.arguments ++ "]"],
            events := st.events ++ [Event.providerCallTool (headOrEmpty parts)
              ((parts.get? 1).getD "undefined") toolCall.arguments] }
        toolCall r

/-- Processing of one invocation request (index.ts lines 244-377): split the
qualified name on `__`, look up the provider session, and either emit the
inline unknown-server note and continue, or dispatch. -/
def processToolCall (c : MCPClient) (api : Api) (st : LoopState)
    (toolCall : ToolCall) : Except String LoopState :=
  match mapGet c.sessions (headOrEmpty (splitDunder toolCall.name)) with
  | none =>
    Except.ok { st with finalText := st.finalText
      ++ ["[Error: Server " ++ headOrEmpty (splitDunder toolCall.name) ++ " not found]"] }
  | some session =>
    dispatchKnown c api st toolCall (splitDunder toolCall.name) session

/-- Processing of one completion choice (index.ts lines 236-379): truthy
plain content is appended to the output, then the invocation requests are
processed sequentially in the order received. -/
def processChoice (c : MCPClient) (api : Api) (st : LoopState) (choice : Choice) :
    Except String LoopState :=
  let st' := if jsTruthy choice.message.content then
      { st with finalText := st.finalText ++ [choice.message.content.getD ""] }
    else st
  match choice.message.tool_calls with
  | none => Except.ok st'
  | some calls => List.foldlM (processToolCall c api) st' calls

/-- The observable outcome of one `processQuery` call. -/
structure QueryResult where
  output : String
  transcript : List ChatMessage
  events : List Event
  toolsOffered : List ToolDef

/-- `MCPClient.processQuery` (index.ts lines 165-382): guard on an empty
session registry, seed a fresh transcript with the user text, rebuild the
flattened catalog (one `listTools` round-trip per session), make the first
chat-completion call, process every choice, and join the accumulated
output with newlines. -/
def processQuery (c : MCPClient) (api : Api) (query : String) :
    Except String QueryResult :=
  if c.sessions.isEmpty then Except.error "Not connected to any server"
  else
    match List.foldlM (processChoice c api)
        { messages := [ChatMessage.user query],
          finalText := [],
          events := (c.sessions.map (fun p => Event.providerListTools p.1))
            ++ [Event.completionCall [ChatMessage.user query]],
          apiCalls := 1 }
        (api 0 [ChatMessage.user query]).choices with
    | Except.error e => Except.error e
    | Except.ok st =>
      Except.ok { output := joinLines st.finalText,
                  transcript := st.messages,
                  events := st.events,
                  toolsOffered := buildAvailableTools c }

/-- One observable step of the interactive loop. -/
inductive LoopEvent
  | processed (query : String) (result : Except String String)
  | quitExit

/-- `MCPClient.chatLoop` (index.ts lines 396-408) over a finite list of
input lines, with `processQuery` abstracted as an oracle: each line is
trimmed; the case-insensitive sentinel `quit` breaks out of the loop; any
other line (empty included) is forwarded, its outcome (response or caught
error) recorded, and the loop continues with the next line. -/
def chatLoop (pq : String → Except String String) : List String → List LoopEvent
  | [] => []
  | line :: rest =>
    if lowerAscii (jsTrim line) == "quit" then [LoopEvent.quitExit]
    else LoopEvent.processed (jsTrim line) (pq (jsTrim line)) :: chatLoop pq rest

/-- Date normalisation of the `healthMetrics` handlers
(`src/unnamed/part_000` lines 29-34, `src/unnamed/part_001` lines 90-95):
if the date string contains a hyphen, all hyphens are removed. -/
def formatDateForApi (date : String) : String :=
  if date.data.contains '-' then ⟨date.data.filter (fun ch => ch != '-')⟩ else date

/-- The backend request path built by the `healthMetrics` handlers
(`src/unnamed/part_000` line 43, `src/unnamed/part_001` line 104). -/
def healthMetricsRequestPath (userId date : String) : String :=
  "http://43.138.239.43:8000/get_daily_data_by_device/" ++ userId ++ "/"
    ++ formatDateForApi date

/-- Number of chat-completion calls recorded in a trace. -/
def countCompletionCalls (evs : List Event) : Nat :=
  evs.countP (fun e => match e with | Event.completionCall _ => true | _ => false)

/-- Number of provider round-trips (of any kind) recorded in a trace. -/
def countProviderCalls (evs : List Event) : Nat :=
  evs.countP (fun e => match e with | Event.completionCall _ => false | _ => true)

/-- Number of `invoke`/`readResource` provider calls recorded in a trace. -/
def countInvokeOrReadCalls (evs : List Event) : Nat :=
  evs.countP (fun e => match e with
    | Event.providerCallTool _ _ _ => true
    | Event.providerReadResource _ _ => true
    | _ => false)

/-- Number of `callTool` provider calls recorded in a trace. -/
def countCallToolEvents (evs : List Event) : Nat :=
  evs.countP (fun e => match e with | Event.providerCallTool _ _ _ => true | _ => false)

/-- Number of tool-result messages in a transcript. -/
def countToolMessages (msgs : List ChatMessage) : Nat :=
  msgs.countP (fun m => match m with | ChatMessage.tool _ _ => true | _ => false)

/-- The transcripts sent to the chat-completion API, in call order. -/
def completionCallTranscripts (evs : List Event) : List (List ChatMessage) :=
  evs.filterMap (fun e => match e with
    | Event.completionCall ms => some ms
    | _ => none)

/-- Event trace of a query outcome (empty for a thrown error). -/
def queryEvents (r : Except String QueryResult) : List Event :=
  match r with
  | Except.ok q => q.events
  | Except.error _ => []

/-- Output text of a query outcome (empty for a thrown error). -/
def queryOutput (r : Except String QueryResult) : String :=
  match r with
  | Except.ok q => q.output
  | Except.error _ => ""

/-- Whether a query outcome is a thrown error with the given message. -/
def isErrorNamed (r : Except String QueryResult) (e : String) : Bool :=
  match r with
  | Except.error s => s == e
  | Except.ok _ => false

/-- The inputs forwarded to `processQuery` by a chat-loop run. -/
def forwardedQueries (evs : List LoopEvent) : List String :=
  evs.filterMap (fun e => match e with
    | LoopEvent.processed q _ => some q
    | _ => none)

/-- The expected interleaving of K (assistant-call, tool-result) pairs for
K invocation requests and their collapsed result texts. -/
def interleavePairs : List ToolCall → List String → List ChatMessage
  | tc :: tcs, r :: rs =>
    ChatMessage.assistant "" [tc] :: ChatMessage.tool tc.id r :: interleavePairs tcs rs
  | _, _ => []

/-! Concrete fixtures used by the closed evaluation theorems: a provider
session that is never actually invoked, a client with that single session
and an empty cached resource map, and chat-completion mocks. -/

/-- A provider session whose `invoke`/`readResource` oracles are never
reached in the runs that use it. -/
def exSession : Session :=
  { tools := [],
    callTool := fun _ _ => Except.error "unused",
    readResource := fun _ _ => Except.error "unused" }

/-- A client connected to the single provider `S`, which declared zero
resources. -/
def exClient : MCPClient :=
  { sessions := [("S", exSession)], resources := [("S", [])] }

/-- First of two invocation requests of one model turn. -/
def tcA : ToolCall := { id := "call-1", name := "S__listResources", arguments := "noargs" }

/-- Second of two invocation requests of one model turn. -/
def tcB : ToolCall := { id := "call-2", name := "S__listResources", arguments := "noargs" }

/-- A chat-completion mock whose first response carries two invocation
requests and no plain content, and whose follow-up responses are plain
text. -/
def exApi : Api := fun n _ =>
  if n == 0 then
    { choices := [{ message := { content := none, tool_calls := some [tcA, tcB] } }] }
  else
    { choices := [{ message := { content := some "done", tool_calls := none } }] }

/-- The in-flight state right after the first chat-completion call of a
query whose user text is `q`. -/
def stEx : LoopState :=
  { messages := [ChatMessage.user "q"],
    finalText := [],
    events := [Event.providerListTools "S", Event.completionCall [ChatMessage.user "q"]],
    apiCalls := 1 }

/-- A client with no connected providers. -/
def cEmpty : MCPClient := { sessions := [], resources := [] }

/-- A chat-completion mock returning no choices (never consulted in the
runs that use it). -/
def apiNone : Api := fun _ _ => { choices := [] }

/-- An invocation request whose provider segment names a server that was
never connected. -/
def tcGhost : ToolCall := { id := "id1", name := "ghost__tool", arguments := "a" }

/-- A `processQuery` oracle that echoes its input. -/
def pqEcho : String → Except String String := fun q => Except.ok ("R:" ++ q)

/-- A `processQuery` oracle that always throws. -/
def pqBoom : String → Except String String := fun _ => Except.error "boom"

/-- A provider session whose `callTool` oracle always throws. -/
def boomSession : Session :=
  { tools := [{ name := "boomTool", description := "d", inputSchema := Schema.declared "s" }],
    callTool := fun _ _ => Except.error "boom",
    readResource := fun _ _ => Except.error "unused" }

/-- A client connected to the single provider `S` whose `callTool` throws. -/
def c2x : MCPClient :=
  { sessions := [("S", boomSession)], resources := [("S", [])] }

/-- An invocation request targeting the throwing tool. -/
def tcBoom : ToolCall := { id := "id9", name := "S__boomTool", arguments := "argjson" }

/-- A chat-completion mock whose first response requests the throwing tool. -/
def c2api : Api := fun n _ =>
  if n == 0 then
    { choices := [{ message := { content := none, tool_calls := some [tcBoom] } }] }
  else
    { choices := [{ message := { content := some "x", tool_calls := none } }] }

/-- A provider session with one tool, used for the plain-text-turn run. -/
def c3Session : Session :=
  { tools := [{ name := "t1", description := "d1", inputSchema := Schema.declared "sch" }],
    callTool := fun _ _ => Except.error "unused",
    readResource := fun _ _ => Except.error "unused" }

/-- A client connected to the single provider `S` with one tool and zero
resources. -/
def c3x : MCPClient :=
  { sessions := [("S", c3Session)], resources := [("S", [])] }

/-- A chat-completion mock that always answers with plain text and no
invocation requests. -/
def c3api : Api := fun _ _ =>
  { choices := [{ message := { content := some "Hello there", tool_calls := none } }] }

/-! Helper lemmas about the JS `Map` model and the event counters. -/

theorem mapGet_map_overwrite {α : Type} {k : String} (v : α) :
    ∀ m : List (String × α), m.any (fun p => p.1 == k) = true →
      mapGet (m.map (fun p => if p.1 == k then (k, v) else p)) k = some v := by
  intro m
  induction m with
  | nil => simp
  | cons p rest ih =>
    intro h
    by_cases hp : (p.1 == k) = true
    · simp [mapGet, hp]
    · have hrest : rest.any (fun p => p.1 == k) = true := by
        simpa [List.any_cons, hp] using h
      rw [List.map_cons, if_neg hp]
      simp only [mapGet]
      rw [if_neg hp]
      exact ih hrest

theorem mapGet_append_of_not_mem {α : Type} {k : String} (l : List (String × α)) :
    ∀ m : List (String × α), m.any (fun p => p.1 == k) = false →
      mapGet (m ++ l) k = mapGet l k := by
  intro m
  induction m with
  | nil => simp
  | cons p rest ih =>
    intro h
    have hp : (p.1 == k) = false := by
      by_contra hc
      simp only [List.any_cons, Bool.or_eq_false_iff] at h
      exact hc h.1
    have hrest : rest.any (fun p => p.1 == k) = false := by
      simp only [List.any_cons, Bool.or_eq_false_iff] at h
      exact h.2
    simp [mapGet, hp, ih hrest]

theorem mapGet_mapSet_self {α : Type} (m : List (String × α)) (k : String) (v : α) :
    mapGet (mapSet m k v) k = some v := by
  unfold mapSet
  by_cases h : m.any (fun p => p.1 == k) = true
  · simp only [h, if_true]
    exact mapGet_map_overwrite v m h
  · have h' : m.any (fun p => p.1 == k) = false := by
      exact Bool.eq_false_iff.mpr h
    simp only [h', Bool.false_eq_true, if_false]
    rw [mapGet_append_of_not_mem _ m h']
    simp [mapGet]

theorem mem_mapSet_self {α : Type} (m : List (String × α)) (k : String) (v : α) :
    (k, v) ∈ mapSet m k v := by
  unfold mapSet
  split
  · rename_i h
    obtain ⟨p, hp, hpk⟩ := List.any_eq_true.mp h
    exact List.mem_map.mpr ⟨p, hp, by simp [hpk]⟩
  · exact List.mem_append.mpr (Or.inr (by simp))

theorem mem_foldl_append {β : Type} (f : String × Session → List β) :
    ∀ (l : List (String × Session)) (acc : List β) (x : β),
      (x ∈ acc ∨ ∃ p ∈ l, x ∈ f p) →
      x ∈ l.foldl (fun a q => a ++ f q) acc := by
  intro l
  induction l with
  | nil =>
    intro acc x h
    rcases h with h | ⟨p, hp, _⟩
    · simpa using h
    · simp at hp
  | cons p rest ih =>
    intro acc x h
    apply ih
    rcases h with h | ⟨q, hq, hx⟩
    · exact Or.inl (List.mem_append.mpr (Or.inl h))
    · rcases List.mem_cons.mp hq with rfl | hq'
      · exact Or.inl (List.mem_append.mpr (Or.inr hx))
      · exact Or.inr ⟨q, hq', hx⟩

theorem countInvokeOrReadCalls_listTools (l : List (String × Session)) :
    countInvokeOrReadCalls (l.map (fun p => Event.providerListTools p.1)) = 0 := by
  induction l with
  | nil => rfl
  | cons p rest ih =>
    simp only [List.map_cons, countInvokeOrReadCalls, List.countP_cons] at ih ⊢
    simp only [ih]
    rfl

theorem countCallToolEvents_clientReadResource (c : MCPClient)
    (serverName resourceName params : String) :
    countCallToolEvents (clientReadResource c serverName resourceName params).2 = 0 := by
  unfold clientReadResource
  split
  · rfl
  · split
    · rfl
    · split
      · rfl
      · rfl

theorem finishToolCall_ok {api : Api} {st : LoopState} {tc : ToolCall}
    {r : ToolResultContent} {st' : LoopState}
    (h : finishToolCall api st tc r = Except.ok st') :
    st'.apiCalls = st.apiCalls + 1 ∧
    st'.messages = st.messages
      ++ [ChatMessage.assistant "" [tc], ChatMessage.tool tc.id (collapseToolResult r)] ∧
    st'.events = st.events ++ [Event.completionCall (st.messages
      ++ [ChatMessage.assistant "" [tc], ChatMessage.tool tc.id (collapseToolResult r)])] := by
  unfold finishToolCall at h
  split at h
  · exact absurd h (by simp)
  · simp only [Except.ok.injEq] at h
    subst h
    exact ⟨rfl, rfl, rfl⟩

theorem processToolCall_known_ok {c : MCPClient} {api : Api} {st : LoopState}
    {tc : ToolCall} {st' : LoopState} {sess : Session}
    (hsess : mapGet c.sessions (headOrEmpty (splitDunder tc.name)) = some sess)
    (hok : processToolCall c api st tc = Except.ok st') :
    st'.apiCalls = st.apiCalls + 1 ∧
    ∃ r : String, st'.messages = st.messages
      ++ [ChatMessage.assistant "" [tc], ChatMessage.tool tc.id r] := by
  unfold processToolCall at hok
  rw [hsess] at hok
  split at hok
  · rename_i heq
    exact Option.noConfusion heq
  · rename_i session heq
    unfold dispatchKnown at hok
    split at hok
    · split at hok
      · exact absurd hok (by simp)
      · obtain ⟨h1, h2, _⟩ := finishToolCall_ok hok
        exact ⟨h1, _, h2⟩
    · split at hok
      · unfold dispatchRead at hok
        split at hok
        · obtain ⟨h1, h2, _⟩ := finishToolCall_ok hok
          exact ⟨h1, _, h2⟩
        · obtain ⟨h1, h2, _⟩ := finishToolCall_ok hok
          exact ⟨h1, _, h2⟩
      · split at hok
        · exact absurd hok (by simp)
        · obtain ⟨h1, h2, _⟩ := finishToolCall_ok hok
          exact ⟨h1, _, h2⟩

/-- Claim C4, counterexample: with arbitrary local names the qualification
function is NOT collision-free across distinct providers — the provider
pair `a` / `a__b` with local names `b__c` / `c` produces the same
qualified name `a__b__c` although the provider names differ. -/
theorem c4_counterexample :
    qualify "a" "b__c" = qualify "a__b" "c" ∧ ("a" : String) ≠ "a__b" := by
  constructor
  · decide
  · decide

/-- Claim C4 (amended): for the SAME local name, qualified names of
distinct providers never collide: if `p₁ ≠ p₂` then
`qualify p₁ n ≠ qualify p₂ n`. -/
theorem c4_theorem (p₁ p₂ n : String) (h : p₁ ≠ p₂) :
    qualify p₁ n ≠ qualify p₂ n := by
  intro heq
  apply h
  have hd := congrArg String.data heq
  simp only [qualify, String.data_append] at hd
  exact String.ext (List.append_cancel_right (List.append_cancel_right hd))

/-- Claim C4, witness: the amended theorem applied at providers `a` and
`b` with the shared local name `t`. -/
theorem c4_witness : ("a" : String) ≠ "b" ∧ qualify "a" "t" ≠ qualify "b" "t" :=
  ⟨by decide, c4_theorem "a" "b" "t" (by decide)⟩

/-- Claim C6: when the provider segment of a qualified name has no active
session, processing that invocation request appends the inline error note
`[Error: Server S not found]` to the output and the turn continues with
exactly the remaining invocation requests of the same model response. -/
theorem c6_theorem (c : MCPClient) (api : Api) (st : LoopState) (tc : ToolCall)
    (rest : List ToolCall) (s : String)
    (hs : headOrEmpty (splitDunder tc.name) = s)
    (hn : mapGet c.sessions s = none) :
    List.foldlM (processToolCall c api) st (tc :: rest)
      = List.foldlM (processToolCall c api)
          { st with finalText := st.finalText ++ ["[Error: Server " ++ s ++ " not found]"] }
          rest := by
  rw [List.foldlM_cons]
  unfold processToolCall
  rw [hs, hn]
  rfl

/-- Claim C6, witness: the theorem applied to a client with no sessions and
a request naming the never-connected provider `ghost`, followed by one
more request. -/
theorem c6_witness :
    List.foldlM (processToolCall cEmpty apiNone) stEx [tcGhost, tcGhost]
      = List.foldlM (processToolCall cEmpty apiNone)
          { stEx with finalText := stEx.finalText ++ ["[Error: Server ghost not found]"] }
          [tcGhost] :=
  c6_theorem cEmpty apiNone stEx tcGhost [tcGhost] "ghost" (by decide) rfl

/-- Claim C7, counterexample: the interactive loop forwards the EMPTY
trimmed line to `processQuery` as well — with input lines `""` then
`"quit"`, the forwarded queries are `[""]`, contradicting that only
non-empty input is forwarded. -/
theorem c7_counterexample :
    forwardedQueries (chatLoop pqEcho ["", "quit"]) = [""] := by decide

/-- Claim C7 (amended): the loop trims each line; the trimmed line equal to
the sentinel `quit` under case-insensitive comparison exits; ANY other
input — empty included — is forwarded to `processQuery`; an error thrown
by that call is caught and recorded, and the loop continues with the
remaining input. -/
theorem c7_theorem (pq : String → Except String String) (line : String)
    (rest : List String) (e : String)
    (hq : (lowerAscii (jsTrim line) == "quit") = false)
    (he : pq (jsTrim line) = Except.error e) :
    chatLoop pq (line :: rest)
      = LoopEvent.processed (jsTrim line) (Except.error e) :: chatLoop pq rest := by
  simp only [chatLoop, hq, he, Bool.false_eq_true, if_false]

/-- Claim C7, witness: the amended theorem applied to the throwing
`processQuery` oracle on the input `hi` followed by `quit`. -/
theorem c7_witness :
    chatLoop pqBoom ["hi", "quit"]
      = LoopEvent.processed (jsTrim "hi") (Except.error "boom") :: chatLoop pqBoom ["quit"] :=
  c7_theorem pqBoom "hi" ["quit"] "boom" (by decide) rfl

/-- Claim C8: the date strings `2025-04-01` and `20250401` normalise to the
identical backend request path for every user id — the handler strips
hyphens before building the URL. -/
theorem c8_theorem (userId : String) :
    healthMetricsRequestPath userId "2025-04-01"
      = healthMetricsRequestPath userId "20250401" := by
  unfold healthMetricsRequestPath
  rw [(by decide : formatDateForApi "2025-04-01" = formatDateForApi "20250401")]

/-- Claim C1, counterexample: in a run whose first model response carries
TWO invocation requests, the orchestrator makes THREE chat-completion
calls in total — one extra call per request — not the claimed single
additional call (which would give two calls in total). -/
theorem c1_counterexample :
    countCompletionCalls (queryEvents (processQuery exClient exApi "q")) = 3
      ∧ (3 : Nat) ≠ 2 := by
  constructor
  · decide
  · decide

/-- Claim C1 (amended): the orchestrator issues one additional
chat-completion call per successfully dispatched invocation request — for
K requests with known provider sessions, a successful dispatch loop makes
exactly K further calls. -/
theorem c1_theorem (c : MCPClient) (api : Api) (calls : List ToolCall)
    (st st' : LoopState)
    (hknown : ∀ tc ∈ calls,
      (mapGet c.sessions (headOrEmpty (splitDunder tc.name))).isSome = true)
    (hok : List.foldlM (processToolCall c api) st calls = Except.ok st') :
    st'.apiCalls = st.apiCalls + calls.length := by
  induction calls generalizing st with
  | nil =>
    simp only [List.foldlM_nil] at hok
    cases Except.ok.inj hok
    simp
  | cons tc rest ih =>
    rw [List.foldlM_cons] at hok
    cases h1 : processToolCall c api st tc with
    | error e =>
      rw [h1] at hok
      exact Except.noConfusion hok
    | ok st1 =>
      rw [h1] at hok
      have hs := hknown tc (List.mem_cons_self tc rest)
      obtain ⟨sess, hsess⟩ := Option.isSome_iff_exists.mp hs
      obtain ⟨ha, -⟩ := processToolCall_known_ok hsess h1
      have hrec := ih st1 (fun t ht => hknown t (List.mem_cons_of_mem tc ht)) hok
      simp only [List.length_cons]
      omega

/-- Claim C1, witness: the amended theorem applied to the two-request run,
showing two additional chat-completion calls. -/
theorem c1_witness :
    ∃ st', List.foldlM (processToolCall exClient exApi) stEx [tcA, tcB] = Except.ok st'
      ∧ st'.apiCalls = stEx.apiCalls + 2 := by
  obtain ⟨st', hst⟩ : ∃ st',
      List.foldlM (processToolCall exClient exApi) stEx [tcA, tcB] = Except.ok st' := ⟨_, rfl⟩
  refine ⟨st', hst, ?_⟩
  have h := c1_theorem exClient exApi [tcA, tcB] stEx st' (by decide) hst
  simpa using h

/-- Claim C5, counterexample: with two invocation requests in one model
turn, the first follow-up chat-completion call receives a transcript with
only ONE tool-result message, not the claimed K = 2 — only the transcript
after all requests are processed carries both pairs. -/
theorem c5_counterexample :
    ((completionCallTranscripts (queryEvents (processQuery exClient exApi "q"))).get? 1).map
        countToolMessages = some 1
      ∧ (1 : Nat) ≠ 2 := by
  constructor
  · decide
  · decide

/-- Claim C5 (amended): after all K invocation requests of one model turn
are processed (all with known provider sessions), the transcript has grown
by exactly the K ordered (assistant-call, tool-result) pairs, each
tool-result immediately preceded by the assistant message carrying its
invocation reference, in request order; intermediate follow-up calls see
only the pairs appended so far. -/
theorem c5_theorem (c : MCPClient) (api : Api) (calls : List ToolCall)
    (st st' : LoopState)
    (hknown : ∀ tc ∈ calls,
      (mapGet c.sessions (headOrEmpty (splitDunder tc.name))).isSome = true)
    (hok : List.foldlM (processToolCall c api) st calls = Except.ok st') :
    ∃ results : List String, results.length = calls.length ∧
      st'.messages = st.messages ++ interleavePairs calls results ∧
      countToolMessages st'.messages = countToolMessages st.messages + calls.length := by
  induction calls generalizing st with
  | nil =>
    simp only [List.foldlM_nil] at hok
    cases Except.ok.inj hok
    exact ⟨[], rfl, by simp [interleavePairs], by simp⟩
  | cons tc rest ih =>
    rw [List.foldlM_cons] at hok
    cases h1 : processToolCall c api st tc with
    | error e =>
      rw [h1] at hok
      exact Except.noConfusion hok
    | ok st1 =>
      rw [h1] at hok
      have hs := hknown tc (List.mem_cons_self tc rest)
      obtain ⟨sess, hsess⟩ := Option.isSome_iff_exists.mp hs
      obtain ⟨-, r, hmsg1⟩ := processToolCall_known_ok hsess h1
      obtain ⟨rs, hlen, hmsg, hcount⟩ :=
        ih st1 (fun t ht => hknown t (List.mem_cons_of_mem tc ht)) hok
      refine ⟨r :: rs, by simp [hlen], ?_, ?_⟩
      · rw [hmsg, hmsg1]
        simp [interleavePairs, List.append_assoc]
      · rw [hcount, hmsg1]
        simp [countToolMessages, List.countP_append, List.countP_cons]
        omega

/-- Claim C5, witness: the amended theorem applied to the two-request run:
the final transcript extends the seed transcript by exactly two ordered
pairs. -/
theorem c5_witness :
    ∃ st', List.foldlM (processToolCall exClient exApi) stEx [tcA, tcB] = Except.ok st'
      ∧ ∃ results : List String, results.length = 2
          ∧ st'.messages = stEx.messages ++ interleavePairs [tcA, tcB] results := by
  obtain ⟨st', hst⟩ : ∃ st',
      List.foldlM (processToolCall exClient exApi) stEx [tcA, tcB] = Except.ok st' := ⟨_, rfl⟩
  obtain ⟨rs, hlen, hmsg, -⟩ := c5_theorem exClient exApi [tcA, tcB] stEx st' (by decide) hst
  exact ⟨st', hst, rs, by simpa using hlen, hmsg⟩

/-- Claim C10: dispatch inspects only the second segment of the split
qualified name — whenever that segment is exactly `listResources` or
`readResource`, a successful dispatch performs NO `callTool` provider
round-trip, so a provider tool locally named that way is never reachable
through its qualified name. -/
theorem c10_theorem (c : MCPClient) (api : Api) (st : LoopState) (tc : ToolCall)
    (st' : LoopState) (ft : String)
    (hft : (splitDunder tc.name).get? 1 = some ft)
    (hor : ft = "listResources" ∨ ft = "readResource")
    (hok : processToolCall c api st tc = Except.ok st') :
    countCallToolEvents st'.events = countCallToolEvents st.events := by
  unfold processToolCall at hok
  split at hok
  · simp only [Except.ok.injEq] at hok
    subst hok
    rfl
  · rename_i session heq
    unfold dispatchKnown at hok
    rcases hor with h | h
    · subst h
      rw [if_pos hft] at hok
      split at hok
      · exact Except.noConfusion hok
      · obtain ⟨-, -, hev⟩ := finishToolCall_ok hok
        rw [hev]
        simp [countCallToolEvents, List.countP_append, List.countP_cons]
    · subst h
      rw [hft] at hok
      rw [if_neg (by decide), if_pos rfl] at hok
      unfold dispatchRead at hok
      split at hok
      · rename_i e evs heq2
        have h2 := countCallToolEvents_clientReadResource c
          (headOrEmpty (splitDunder tc.name))
          (((splitDunder tc.name).get? 2).getD "undefined") tc.arguments
        rw [heq2] at h2
        obtain ⟨-, -, hev⟩ := finishToolCall_ok hok
        rw [hev]
        simp only [countCallToolEvents, List.countP_append] at h2 ⊢
        simp [List.countP_cons, h2]
      · rename_i res evs heq2
        have h2 := countCallToolEvents_clientReadResource c
          (headOrEmpty (splitDunder tc.name))
          (((splitDunder tc.name).get? 2).getD "undefined") tc.arguments
        rw [heq2] at h2
        obtain ⟨-, -, hev⟩ := finishToolCall_ok hok
        rw [hev]
        simp only [countCallToolEvents, List.countP_append] at h2 ⊢
        simp [List.countP_cons, h2]

/-- Claim C10, witness: the theorem applied to a `listResources` dispatch
on the connected provider `S`: no `callTool` round-trip is recorded. -/
theorem c10_witness :
    ∃ st', processToolCall exClient exApi stEx tcA = Except.ok st'
      ∧ countCallToolEvents st'.events = countCallToolEvents stEx.events := by
  obtain ⟨st', hst⟩ : ∃ st', processToolCall exClient exApi stEx tcA = Except.ok st' := ⟨_, rfl⟩
  exact ⟨st', hst,
    c10_theorem exClient exApi stEx tcA st' "listResources" (by decide) (Or.inl rfl) hst⟩

/-- Claim C2, counterexample: with a provider whose `callTool` throws
`boom`, `processQuery` does NOT return a string containing an error
indicator — the fault escapes `processQuery` uncaught (as the thrown
error `boom`). -/
theorem c2_counterexample :
    isErrorNamed (processQuery c2x c2api "hi") "boom" = true := by decide

/-- Claim C2 (amended): a `callTool` (invoke) error is NOT caught at the
dispatch site: when the model requests an ordinary tool (second segment
neither `listResources` nor `readResource`) of a connected provider and
the provider's `callTool` throws, the error propagates out of
`processQuery` as an uncaught fault (which the interactive loop then
catches and prints); only `readResource` dispatch errors are caught and
folded into the transcript. -/
theorem c2_theorem (c : MCPClient) (api : Api) (q s t e : String)
    (sess : Session) (tc : ToolCall)
    (hne : c.sessions.isEmpty = false)
    (hapi : api 0 [ChatMessage.user q]
      = { choices := [{ message := { content := none, tool_calls := some [tc] } }] })
    (hsplit : splitDunder tc.name = [s, t])
    (ht1 : t ≠ "listResources") (ht2 : t ≠ "readResource")
    (hsess : mapGet c.sessions s = some sess)
    (hcall : sess.callTool t tc.arguments = Except.error e) :
    processQuery c api q = Except.error e := by
  unfold processQuery
  rw [if_neg (by simp [hne]), hapi]
  unfold processChoice
  simp only [List.foldlM_cons, List.foldlM_nil]
  unfold processToolCall
  simp only [hsplit, headOrEmpty, List.head?_cons, Option.getD_some, jsTruthy]
  rw [hsess]
  unfold dispatchKnown
  simp only [List.get?]
  rw [if_neg (by simp [ht1]), if_neg (by simp [ht2])]
  simp only [Option.getD_some]
  rw [hcall]
  rfl

/-- Claim C2, witness: the amended theorem applied to the concrete client
whose provider `S` throws `boom` on invoke. -/
theorem c2_witness : processQuery c2x c2api "hi" = Except.error "boom" :=
  c2_theorem c2x c2api "hi" "S" "boomTool" "boom" boomSession tcBoom
    rfl rfl (by decide) (by decide) (by decide) rfl rfl

/-- Claim C3, counterexample: even for a plain-text model response with no
invocation requests, `processQuery` performs ONE provider call — the
`listTools` catalog refresh of the connected session — so the count of
provider calls is not zero. -/
theorem c3_counterexample :
    queryOutput (processQuery c3x c3api "hello") = "Hello there"
      ∧ countProviderCalls (queryEvents (processQuery c3x c3api "hello")) = 1
      ∧ (1 : Nat) ≠ 0 := by
  refine ⟨by decide, by decide, by decide⟩

/-- Claim C3 (amended): when the chat-completion API returns a single
choice with truthy plain text and no invocation requests,
`processQuery(q)` returns exactly that text, and the only provider
round-trips of the query are the per-session `listTools` calls used to
rebuild the flattened catalog — no `invoke` or `readResource` call is
made. -/
theorem c3_theorem (c : MCPClient) (api : Api) (q t : String)
    (hne : c.sessions.isEmpty = false)
    (hapi : api 0 [ChatMessage.user q]
      = { choices := [{ message := { content := some t, tool_calls := none } }] })
    (ht : (t == "") = false) :
    processQuery c api q = Except.ok
      { output := t,
        transcript := [ChatMessage.user q],
        events := (c.sessions.map (fun p => Event.providerListTools p.1))
          ++ [Event.completionCall [ChatMessage.user q]],
        toolsOffered := buildAvailableTools c }
    ∧ countInvokeOrReadCalls
        ((c.sessions.map (fun p => Event.providerListTools p.1))
          ++ [Event.completionCall [ChatMessage.user q]]) = 0 := by
  constructor
  · unfold processQuery
    rw [if_neg (by simp [hne]), hapi]
    unfold processChoice
    simp only [List.foldlM_cons, List.foldlM_nil, jsTruthy, ht]
    simp only [Bool.not_false, if_true, Option.getD_some]
    rfl
  · rw [countInvokeOrReadCalls, List.countP_append]
    have h1 := countInvokeOrReadCalls_listTools c.sessions
    rw [countInvokeOrReadCalls] at h1
    rw [h1]
    rfl

/-- Claim C3, witness: the amended theorem applied to the concrete
one-session client and a plain-text completion mock. -/
theorem c3_witness :
    processQuery c3x c3api "hello" = Except.ok
      { output := "Hello there",
        transcript := [ChatMessage.user "hello"],
        events := (c3x.sessions.map (fun p => Event.providerListTools p.1))
          ++ [Event.completionCall [ChatMessage.user "hello"]],
        toolsOffered := buildAvailableTools c3x }
    ∧ countInvokeOrReadCalls
        ((c3x.sessions.map (fun p => Event.providerListTools p.1))
          ++ [Event.completionCall [ChatMessage.user "hello"]]) = 0 :=
  c3_theorem c3x c3api "hello" "Hello there" rfl rfl (by decide)

/-- Claim C9: after ANY provider connects declaring zero resources, the
flattened capability list still contains its `<name>__listResources`
meta-capability, and `listResources` on the client returns the empty list
without throwing. -/
theorem c9_theorem (c : MCPClient) (serverName : String) (session : Session) :
    ((buildAvailableTools (connectToServer c serverName session [])).any
        (fun td => td.name == serverName ++ "__listResources")) = true
    ∧ listResources (connectToServer c serverName session []) serverName
        = Except.ok [] := by
  constructor
  · apply List.any_eq_true.mpr
    refine ⟨{ name := serverName ++ "__listResources",
              description := "[" ++ serverName ++ "] List available resources on the server",
              parameters := Schema.emptyObject }, ?_, by simp⟩
    unfold buildAvailableTools
    apply mem_foldl_append
    refine Or.inr ⟨(serverName, session), ?_, ?_⟩
    · exact mem_mapSet_self _ _ _
    · unfold serverCapabilities
      exact List.mem_append.mpr (Or.inl (List.mem_append.mpr (Or.inr (by simp))))
  · unfold listResources connectToServer
    rw [mapGet_mapSet_self]
    rfl

end MCPSpec
